import Mathlib

/-!
Shallow embedding of the input-device and page-lifecycle core of the rod
browser-automation driver (files `input.go` and `page.go`), together with
theorems settling the specification claims about it.

Conventions of the embedding:
* CDP calls are modelled by their observable effect: each operation returns
  the list of protocol calls/events it emitted, and fallible calls take the
  call result (`Option Nat` error code, or `Except Nat _`) as an oracle
  parameter, standing for whatever the remote browser answered.
* Go maps over keys are modelled as duplicate-free lists; Go map iteration
  is order-nondeterministic, so wherever the source iterates a map we fix a
  deterministic order and only prove order-insensitive facts.
* All definitions are computable so that concrete scenarios evaluate by
  `decide` / `rfl`.
-/

set_option autoImplicit false

namespace Rod

/-! ### Keyboard (input.go)

`input.Key` lives in `lib/input`: all the embedding needs is that every key
has a decidable identity and a modifier bitmask (`Key.Modifier()` in Go,
0 for non-modifier keys). -/

structure Key where
  code : Nat
  modifier : Nat
deriving DecidableEq, Repr

/-- A dispatched `Input.dispatchKeyEvent` call: direction (`true` = keyDown),
the acting key, and the modifier bitmask carried by the event. -/
structure KeyEvent where
  isDown : Bool
  key : Key
  mods : Nat
deriving DecidableEq, Repr

/-- State of `Keyboard.pressed` (a Go map from keys to unit): the set of currently
pressed keys, kept as a duplicate-free list. -/
structure Keyboard where
  pressed : List Key
deriving DecidableEq, Repr

/-- Go `Keyboard.modifiers`: bitwise OR of the modifier masks of all pressed
keys (Go iterates the map; OR is commutative and associative, so the fold
order is irrelevant). -/
def Keyboard.modifiers (k : Keyboard) : Nat :=
  k.pressed.foldl (fun ms key => ms ||| key.modifier) 0

/-- Go `Keyboard.Press`: store the key in the pressed set (Go map assignment:
insert if absent), then dispatch keyDown with the modifiers of the updated
set. The call result is the oracle `callErr`. -/
def Keyboard.press (callErr : Option Nat) (k : Keyboard) (key : Key) :
    Option Nat × Keyboard × List KeyEvent :=
  let pressed' := if key ∈ k.pressed then k.pressed else k.pressed ++ [key]
  let k' : Keyboard := ⟨pressed'⟩
  (callErr, k', [⟨true, key, k'.modifiers⟩])

/-- Go `Keyboard.Release`: if the key is not in the pressed set, return nil
without dispatching anything; otherwise delete it from the set and dispatch
keyUp with the modifiers of the set after the removal. -/
def Keyboard.release (callErr : Option Nat) (k : Keyboard) (key : Key) :
    Option Nat × Keyboard × List KeyEvent :=
  if key ∈ k.pressed then
    let k' : Keyboard := ⟨k.pressed.filter (· ≠ key)⟩
    (callErr, k', [⟨false, key, k'.modifiers⟩])
  else
    (none, k, [])

/-! ### KeyActions (input.go) -/

/-- Enum `KeyActionType`: press, release, or type (press immediately followed by
release). -/
inductive KeyActionType where
  | press
  | release
  | typeKey
deriving DecidableEq, Repr

/-- One scheduled keyboard action (`KeyAction`). -/
structure KeyAction where
  kind : KeyActionType
  key : Key
deriving DecidableEq, Repr

/-- The keys occurring in an action list, first occurrences deduplicated
(the domain of the Go map `h` built by `balance`). -/
def keysOf (actions : List KeyAction) : List Key :=
  (actions.map (·.key)).dedup

/-- Whether the final recorded action for `key` is a press: the last write
to `h[key]` in `balance` is `true`.  `release` and `typeKey` both write
`false`. -/
def lastIsPress (actions : List KeyAction) (key : Key) : Bool :=
  match (actions.filter (·.key = key)).getLast? with
  | some a => a.kind = KeyActionType.press
  | none => false

/-- The releases `balance` appends: one for every key whose final recorded
action is a press.  Go iterates the map `h` in unspecified order; we fix
the `keysOf` order, which is sound because the claims about `balance` are
insensitive to the order of the appended releases. -/
def KeyActions.balanceAppended (actions : List KeyAction) : List KeyAction :=
  ((keysOf actions).filter (lastIsPress actions)).map
    (fun k => ⟨KeyActionType.release, k⟩)

/-- Go `KeyActions.balance`: the scheduled actions followed by the appended
releases. -/
def KeyActions.balance (actions : List KeyAction) : List KeyAction :=
  actions ++ KeyActions.balanceAppended actions

/-- Execute one action on the keyboard along the success path (every CDP
dispatch answers nil), returning the new keyboard and the emitted events.
`typeKey` is `Keyboard.Type`: press then release. -/
def Keyboard.doAction (k : Keyboard) (a : KeyAction) : Keyboard × List KeyEvent :=
  match a.kind with
  | KeyActionType.press =>
      let (_, k', es) := Keyboard.press none k a.key
      (k', es)
  | KeyActionType.release =>
      let (_, k', es) := Keyboard.release none k a.key
      (k', es)
  | KeyActionType.typeKey =>
      let (_, k1, es1) := Keyboard.press none k a.key
      let (_, k2, es2) := Keyboard.release none k1 a.key
      (k2, es1 ++ es2)

/-- Run a list of actions in order (the loop body of `KeyActions.Do`). -/
def Keyboard.runActions (k : Keyboard) : List KeyAction → Keyboard × List KeyEvent
  | [] => (k, [])
  | a :: rest =>
      let (k1, es1) := Keyboard.doAction k a
      let (k2, es2) := Keyboard.runActions k1 rest
      (k2, es1 ++ es2)

/-- Go `KeyActions.Do`: balance the scheduled actions, then execute them. -/
def KeyActions.doRun (k : Keyboard) (actions : List KeyAction) :
    Keyboard × List KeyEvent :=
  Keyboard.runActions k (KeyActions.balance actions)

/-! ### Mouse (input.go)

`proto.InputMouseButton` is a string enum ("left", "middle", "right", ...).
`Mouse.buttons` is the order-preserving stack of currently held buttons. -/

abbrev MouseButton := String

structure Mouse where
  buttons : List MouseButton
deriving DecidableEq, Repr

/-- Go `Mouse.Down`: build `toButtons` by appending the button to the current
stack, dispatch mousePressed (result: oracle `callErr`); commit the new
stack only if the call succeeded, and return the call's error. -/
def Mouse.down (callErr : Option Nat) (m : Mouse) (b : MouseButton) :
    Option Nat × Mouse :=
  let toButtons := m.buttons ++ [b]
  match callErr with
  | some e => (some e, m)
  | none => (none, ⟨toButtons⟩)

/-- Go `Mouse.Up`: build `toButtons` by filtering out every entry equal to the
button, dispatch mouseReleased; commit the new stack only on success. -/
def Mouse.up (callErr : Option Nat) (m : Mouse) (b : MouseButton) :
    Option Nat × Mouse :=
  let toButtons := m.buttons.filter (· ≠ b)
  match callErr with
  | some e => (some e, m)
  | none => (none, ⟨toButtons⟩)

/-- A Down/Up call in a usage sequence of the mouse. -/
inductive MouseOp where
  | down (b : MouseButton)
  | up (b : MouseButton)
deriving DecidableEq, Repr

/-- One successful step of the mouse state machine. -/
def Mouse.step (m : Mouse) : MouseOp → Mouse
  | MouseOp.down b => (Mouse.down none m b).2
  | MouseOp.up b => (Mouse.up none m b).2

/-- Run a sequence of Down/Up calls along the success path. -/
def Mouse.run (m : Mouse) : List MouseOp → Mouse
  | [] => m
  | op :: rest => Mouse.run (Mouse.step m op) rest

/-- A usage discipline: `down b` is only ever invoked while `b` is not
already held.  (Decidable, by recursion over the call sequence.) -/
def Mouse.wellUsed (m : Mouse) : List MouseOp → Bool
  | [] => true
  | MouseOp.down b :: rest =>
      decide (b ∉ m.buttons) && Mouse.wellUsed (Mouse.step m (MouseOp.down b)) rest
  | MouseOp.up b :: rest =>
      Mouse.wellUsed (Mouse.step m (MouseOp.up b)) rest

/-! ### Page.Navigate (page.go) -/

/-- Calls issued by `Page.Navigate`, in order. -/
inductive NavCall where
  | stopLoading
  | pageNavigate (url : String)
deriving DecidableEq, Repr

/-- The `Page.navigate` CDP response body (the part `Navigate` reads). -/
structure PageNavigateRes where
  errorText : String
deriving DecidableEq, Repr

/-- Outcome of `Page.Navigate`: the raw call error, the distinguished
`NavigationError{text}`, or nil. -/
inductive NavOutcome where
  | callErr (e : Nat)
  | navigationError (text : String)
  | success
deriving DecidableEq, Repr

/-- The root page's JS context handle (`jsCtxID`); `unsetJSCtxID` sets it to
`none`. -/
structure JSCtx where
  jsCtxID : Option Nat
deriving DecidableEq, Repr

/-- Go `Page.Navigate`: empty url becomes "about:blank"; `StopLoading` is
attempted first with its result (`stopErr`) discarded; then `Page.navigate`
is issued (result: oracle `navRes`).  A non-empty `errorText` yields
`NavigationError` and leaves the JS context handle alone; on success the
root page's JS context handle is cleared.  Returns the outcome, the JS
context handle afterwards, and the calls issued. -/
def Page.navigate (stopErr : Option Nat) (navRes : Except Nat PageNavigateRes)
    (js : JSCtx) (url : String) : NavOutcome × JSCtx × List NavCall :=
  let url' := if url = "" then "about:blank" else url
  let trace := [NavCall.stopLoading, NavCall.pageNavigate url']
  match navRes with
  | Except.error e => (NavOutcome.callErr e, js, trace)
  | Except.ok res =>
      if res.errorText ≠ "" then (NavOutcome.navigationError res.errorText, js, trace)
      else (NavOutcome.success, ⟨none⟩, trace)

/-! ### Page.Close (page.go) -/

/-- The browser events `Close`'s message loop inspects.  `targetDestroyed`
is a browser-level event (its session id is irrelevant to the loop);
`dialogClosed` is `Page.javascriptDialogClosed` with its `Result` field. -/
inductive CloseEv where
  | targetDestroyed (targetID : String)
  | dialogClosed (result : Bool)
  | otherEv
deriving DecidableEq, Repr

/-- An event envelope as seen by `Close`: the session it arrived on plus
its decoded shape. -/
structure Msg where
  sessionID : String
  ev : CloseEv
deriving DecidableEq, Repr

/-- The message loop of `Page.Close`, threading the `success` flag:
a `TargetDestroyed` for this page's target breaks with the current
`success`; a `javascriptDialogClosed` on this page's session sets
`success := result` and breaks iff the result is false; every other
message is skipped.  If the stream ends, the flag (initially true) is
returned as is. -/
def closeLoop (tid sid : String) (success : Bool) : List Msg → Bool
  | [] => success
  | m :: rest =>
      match m.ev with
      | CloseEv.targetDestroyed t =>
          if t = tid then success else closeLoop tid sid success rest
      | CloseEv.dialogClosed r =>
          if m.sessionID = sid then
            (if r then closeLoop tid sid true rest else false)
          else closeLoop tid sid success rest
      | CloseEv.otherEv => closeLoop tid sid success rest

/-- Result of one `Page.close` CDP call inside the retry loop. -/
inductive CloseCallRes where
  | notAttached
  | failed (e : Nat)
  | okCall
deriving DecidableEq, Repr

/-- The retry loop of `Page.Close`: skip `ErrNotAttachedToActivePage`
results (sleep and retry), stop at the first other result.  `none` means
the oracle list was exhausted while still retrying. -/
def firstDecisive : List CloseCallRes → Option CloseCallRes
  | [] => none
  | CloseCallRes.notAttached :: rest => firstDecisive rest
  | r :: _ => some r

/-- Outcome of `Page.Close`: `cleanup` means `cleanupStates` ran and nil
was returned; `canceled` is the `PageCloseCanceledError` (no cleanup);
`callErr` is a raw failure of the `Page.close` call. -/
inductive CloseOutcome where
  | cleanup
  | canceled
  | callErr (e : Nat)
deriving DecidableEq, Repr

/-- Go `Page.Close`: issue `Page.close` until a decisive result (retrying
`ErrNotAttachedToActivePage`); on a failure return it; on success consume
the event stream with `closeLoop` and map the flag to the outcome.
`Option.none` models the retry loop still spinning when the oracle list
runs out. -/
def Page.close (tid sid : String) (callResults : List CloseCallRes)
    (msgs : List Msg) : Option CloseOutcome :=
  match firstDecisive callResults with
  | none => none
  | some (CloseCallRes.failed e) => some (CloseOutcome.callErr e)
  | some CloseCallRes.notAttached => none
  | some CloseCallRes.okCall =>
      some (if closeLoop tid sid true msgs then CloseOutcome.cleanup
            else CloseOutcome.canceled)

/-! ### Page.WaitRequestIdle event handler (page.go) -/

/-- The network events the `WaitRequestIdle` subscription handles.
`proto.NetworkResourceType` is a string enum, kept as `String` here. -/
inductive NetEvent where
  | requestWillBeSent (id : Nat) (url : String) (rtype : String)
  | loadingFinished (id : Nat)
  | loadingFailed (id : Nat)
deriving DecidableEq, Repr

/-- The default `excludeTypes` list installed when the caller passes nil. -/
def defaultExcludeTypes : List String :=
  ["WebSocket", "EventSource", "Media", "Image", "Font"]

/-- The state owned by a `WaitRequestIdle` subscription: the in-flight
`waitList` map (request id to URL, as a duplicate-free association list)
and the idle counter, modelled from the spec by the running totals of its
`Add` and `Done` calls (`utils.NewIdleCounter` is not part of the embedded
sources; the spec defines it as a counter that resolves once `adds` and
`dones` balance for the configured duration). -/
structure IdleTracker where
  waitList : List (Nat × String)
  adds : Nat
  dones : Nat
deriving DecidableEq, Repr

/-- Membership of a request id in the waitList map. -/
def IdleTracker.tracked (st : IdleTracker) (id : Nat) : Bool :=
  st.waitList.any (·.1 = id)

/-- Go `checkDone`: if the id is tracked, delete it from the map and call
`idleCounter.Done()`; otherwise do nothing. -/
def IdleTracker.checkDone (st : IdleTracker) (id : Nat) : IdleTracker :=
  if st.tracked id then
    ⟨st.waitList.filter (·.1 ≠ id), st.adds, st.dones + 1⟩
  else st

/-- The event handler installed by `WaitRequestIdle`.  A
`requestWillBeSent` whose type is in `excludeTypes` is ignored; one whose
URL fails the matcher is ignored; otherwise the id is added and the idle
counter incremented only when the id is not already tracked (redirects
resend the same id).  `loadingFinished` and `loadingFailed` run
`checkDone`.  The URL matcher built by `genRegMatcher` from the
include/exclude regex lists is abstracted as the predicate `matchURL`. -/
def handleNetEvent (excludeTypes : List String) (matchURL : String → Bool)
    (st : IdleTracker) : NetEvent → IdleTracker
  | NetEvent.requestWillBeSent id url rtype =>
      if rtype ∈ excludeTypes then st
      else if matchURL url then
        (if st.tracked id then st
         else ⟨st.waitList ++ [(id, url)], st.adds + 1, st.dones⟩)
      else st
  | NetEvent.loadingFinished id => st.checkDone id
  | NetEvent.loadingFailed id => st.checkDone id

/-- Fold the handler over an event sequence. -/
def runNetEvents (excludeTypes : List String) (matchURL : String → Bool)
    (st : IdleTracker) : List NetEvent → IdleTracker
  | [] => st
  | e :: rest =>
      runNetEvents excludeTypes matchURL (handleNetEvent excludeTypes matchURL st e) rest

/-! ### Page.WaitStable (page.go) -/

/-- The three tasks `WaitStable` runs in parallel. -/
inductive StableTask where
  | load
  | reqIdle
  | domStable
deriving DecidableEq, Repr

/-- The shared state of `WaitStable`: the `sync.Once` guard, the single
`err` slot it protects, and the tasks that have completed. -/
structure StableState where
  onceDone : Bool
  err : Option Nat
  completed : List StableTask
deriving DecidableEq, Repr

/-- One task of `WaitStable` running to completion.  `WaitLoad` and
`WaitDOMStable` pass their result (`eLoad` / `eDom`, nil or an error) to
`setErr.Do`, which stores it only if no task stored before; the
`WaitRequestIdle` wait returns no error and records nothing. -/
def runStableTask (eLoad eDom : Option Nat) (s : StableState) :
    StableTask → StableState
  | StableTask.load =>
      ⟨true, if s.onceDone then s.err else eLoad, s.completed ++ [StableTask.load]⟩
  | StableTask.domStable =>
      ⟨true, if s.onceDone then s.err else eDom, s.completed ++ [StableTask.domStable]⟩
  | StableTask.reqIdle =>
      ⟨s.onceDone, s.err, s.completed ++ [StableTask.reqIdle]⟩

/-- Go `Page.WaitStable`, modelled from the spec for the concurrency shell:
`utils.All` (not part of the embedded sources) runs the three tasks
concurrently and blocks until all of them finish, so an execution is a
completion order `order` of the tasks; each task runs `runStableTask`
when it completes.  Returns the `err` slot (the value `WaitStable`
returns) and the completed-task list at the moment of return. -/
def Page.waitStable (order : List StableTask) (eLoad eDom : Option Nat) :
    Option Nat × List StableTask :=
  let s := order.foldl (runStableTask eLoad eDom) ⟨false, none, []⟩
  (s.err, s.completed)

/-- The first task in a completion order that records into the `err` slot
(`WaitLoad` or `WaitDOMStable`). -/
def firstRecorder : List StableTask → Option StableTask
  | [] => none
  | StableTask.reqIdle :: rest => firstRecorder rest
  | t :: _ => some t

/-! ### Page.Screenshot (page.go) -/

/-- A device-metrics override (`proto.EmulationSetDeviceMetricsOverride`):
width, height, and a stand-in for all its remaining fields, which
`Screenshot` copies from the loaded prior override unchanged. -/
structure View where
  width : Nat
  height : Nat
  rest : Nat
deriving DecidableEq, Repr

/-- The calls `Screenshot` issues, in order. -/
inductive EmuCall where
  | getLayoutMetrics
  | setDeviceMetricsOverride (v : View)
  | clearDeviceMetricsOverride
  | captureScreenshot
deriving DecidableEq, Repr

/-- The part of `Page.getLayoutMetrics` that `Screenshot` reads. -/
structure LayoutMetrics where
  cssContentSize : Option (Nat × Nat)
deriving DecidableEq, Repr

/-- Failures of `Screenshot`: a raw call error or the "failed to get css
content size" error. -/
inductive ShotErr where
  | call (e : Nat)
  | noContentSize
deriving DecidableEq, Repr

/-- Go `Page.Screenshot`: when `fullPage`, query layout metrics, load the
prior override (`set`/`oldView`, the result of `p.LoadState`), override
the device metrics to the content size, capture, and on every path after
the override was applied restore the prior override (or clear if none was
set) via the deferred function.  Oracles: `metricsRes`, `setViewportRes`
and `captureRes` are the browser's answers to the corresponding calls.
Returns the data-or-error outcome and the calls issued in order. -/
def Page.screenshot (fullPage : Bool) (metricsRes : Except Nat LayoutMetrics)
    (set : Bool) (oldView : View) (setViewportRes : Except Nat Unit)
    (captureRes : Except Nat Nat) : Except ShotErr Nat × List EmuCall :=
  if fullPage then
    match metricsRes with
    | Except.error e => (Except.error (ShotErr.call e), [EmuCall.getLayoutMetrics])
    | Except.ok metrics =>
        match metrics.cssContentSize with
        | none => (Except.error ShotErr.noContentSize, [EmuCall.getLayoutMetrics])
        | some (w, h) =>
            let view : View := { oldView with width := w, height := h }
            match setViewportRes with
            | Except.error e =>
                (Except.error (ShotErr.call e),
                 [EmuCall.getLayoutMetrics, EmuCall.setDeviceMetricsOverride view])
            | Except.ok _ =>
                let restore : List EmuCall :=
                  if set then [EmuCall.setDeviceMetricsOverride oldView]
                  else [EmuCall.clearDeviceMetricsOverride]
                let body := [EmuCall.getLayoutMetrics,
                             EmuCall.setDeviceMetricsOverride view,
                             EmuCall.captureScreenshot]
                match captureRes with
                | Except.error e => (Except.error (ShotErr.call e), body ++ restore)
                | Except.ok d => (Except.ok d, body ++ restore)
  else
    match captureRes with
    | Except.error e => (Except.error (ShotErr.call e), [EmuCall.captureScreenshot])
    | Except.ok d => (Except.ok d, [EmuCall.captureScreenshot])

/-! ### Page.initEvents (page.go) -/

/-- A browser-level event envelope as inspected by the `initEvents`
dispatcher goroutine. -/
inductive BrowserMsg where
  | targetDestroyed (targetID : String)
  | detachedFromTarget (sessionID : String)
  | otherMsg (sessionID : String)
deriving DecidableEq, Repr

/-- The zero value of `proto.TargetTargetDestroyed.TargetID`. -/
def zeroTargetID : String := ""

/-- The termination test of the `initEvents` dispatcher, transcribed from
the source: `msg.Load(&detached)` receives a pointer, so a matching
envelope populates `detached` and its `SessionID` is compared against the
page's; but `msg.Load(destroyed)` passes the `TargetTargetDestroyed`
struct by value, so (by Go call-by-value semantics) the decoded payload
never reaches the local `destroyed`, whose `TargetID` still holds its zero
value when compared against the page's TargetID.  (`Message.Load` itself,
which is outside the embedded sources, reports whether the envelope's
method matches and fills in the target of a pointer argument only; were it
to return false for a non-pointer argument, the destroyed branch would be
dead code and the result below would be unchanged.)  Returns whether
`sessionCancel` is invoked for the message. -/
def initEventsCancels (pTargetID pSessionID : String) : BrowserMsg → Bool
  | BrowserMsg.detachedFromTarget sid => sid == pSessionID
  | BrowserMsg.targetDestroyed _ => zeroTargetID == pTargetID
  | BrowserMsg.otherMsg _ => false

/-- Modelled from the spec: the intended termination test of `initEvents`
("Watches for two termination signals: TargetDestroyed with the page's
target id and DetachedFromTarget with the page's session id; on either,
it cancels the page's scope"). -/
def initEventsCancelsIntended (pTargetID pSessionID : String) : BrowserMsg → Bool
  | BrowserMsg.detachedFromTarget sid => sid == pSessionID
  | BrowserMsg.targetDestroyed tid => tid == pTargetID
  | BrowserMsg.otherMsg _ => false

/-! ### Auxiliary definitions used by the theorems -/

/-- The kind of the last action of the list concerning `key`, if any. -/
def lastKind (l : List KeyAction) (key : Key) : Option KeyActionType :=
  ((l.filter (·.key = key)).getLast?).map (·.kind)

/-- The value `WaitStable` returns as characterized by the completion
order: the result of the first err-recording task to complete. -/
def recordedErr (order : List StableTask) (eLoad eDom : Option Nat) : Option Nat :=
  match firstRecorder order with
  | some StableTask.load => eLoad
  | some StableTask.domStable => eDom
  | _ => none

/-- Concrete keys for scenarios: left Shift (modifier bit 8 in CDP), the
letter A and left Control (modifier bit 2). -/
def shiftKey : Key := ⟨16, 8⟩

def aKey : Key := ⟨65, 0⟩

def ctrlKey : Key := ⟨17, 2⟩

/-! ## Theorems -/

/-- C1: the claim that a `TargetDestroyed` event whose target id equals
the page's TargetID makes `initEvents` invoke `sessionCancel` fails on the
code: `msg.Load(destroyed)` passes the event struct by value, so the
decoded payload never reaches the compared `TargetID`, which still holds
its zero value — the dispatcher does not cancel on `TargetDestroyed` for a
page with a non-empty TargetID, although the intended semantics (and the
`DetachedFromTarget` half, which passes a pointer and does work) cancel. -/
theorem initEvents_targetDestroyed_not_cancelled :
    initEventsCancels "t1" "s1" (BrowserMsg.targetDestroyed "t1") = false ∧
    initEventsCancelsIntended "t1" "s1" (BrowserMsg.targetDestroyed "t1") = true ∧
    initEventsCancels "t1" "s1" (BrowserMsg.detachedFromTarget "s1") = true := by
  refine ⟨?_, rfl, rfl⟩
  decide

/-- C10: if the CDP dispatch issued by `Mouse.Down` or `Mouse.Up` returns
an error, the buttons stack is left unchanged (the new stack is committed
only after a successful call) and the error is returned to the caller. -/
theorem mouse_down_up_error_atomic (m : Mouse) (b : MouseButton) (e : Nat) :
    Mouse.down (some e) m b = (some e, m) ∧ Mouse.up (some e) m b = (some e, m) :=
  ⟨rfl, rfl⟩

/-- C8: a full-page screenshot whose layout metrics query, content size
and device-metrics override all succeeded ends — whether the capture
itself succeeded or failed — with the restore call: the prior override
re-applied when one was set, `EmulationClearDeviceMetricsOverride`
otherwise. -/
theorem screenshot_restores_viewport (set : Bool) (oldView : View)
    (captureRes : Except Nat Nat) (w h : Nat) :
    (Page.screenshot true (Except.ok ⟨some (w, h)⟩) set oldView (Except.ok ())
        captureRes).2.getLast?
      = some (if set then EmuCall.setDeviceMetricsOverride oldView
              else EmuCall.clearDeviceMetricsOverride) := by
  cases captureRes <;> cases set <;>
    simp [Page.screenshot]

/-- C4: `Navigate` with an empty url issues `Page.navigate` on
"about:blank"; it always issues `StopLoading` first and its outcome is
independent of the `StopLoading` error; a response with non-empty
`errorText` yields `NavigationError{text}` and leaves the JS context
handle untouched; a successful response clears the root page's JS context
handle and yields nil. -/
theorem navigate_spec (stopErr : Option Nat) (navRes : Except Nat PageNavigateRes)
    (js : JSCtx) (url : String) :
    (Page.navigate stopErr navRes js "").2.2
      = [NavCall.stopLoading, NavCall.pageNavigate "about:blank"] ∧
    (Page.navigate stopErr navRes js url).2.2.head? = some NavCall.stopLoading ∧
    Page.navigate stopErr navRes js url = Page.navigate none navRes js url ∧
    (∀ res, navRes = Except.ok res → res.errorText ≠ "" →
       (Page.navigate stopErr navRes js url).1 = NavOutcome.navigationError res.errorText ∧
       (Page.navigate stopErr navRes js url).2.1 = js) ∧
    (∀ res, navRes = Except.ok res → res.errorText = "" →
       (Page.navigate stopErr navRes js url).1 = NavOutcome.success ∧
       (Page.navigate stopErr navRes js url).2.1 = ⟨none⟩) := by
  refine ⟨?_, ?_, rfl, ?_, ?_⟩
  · cases navRes with
    | error e => rfl
    | ok res => simp only [Page.navigate]; split <;> rfl
  · cases navRes with
    | error e => rfl
    | ok res => simp only [Page.navigate]; split <;> rfl
  · rintro res rfl h
    simp [Page.navigate, h]
  · rintro res rfl h
    simp [Page.navigate, h]

/-- Witness for C4 at concrete inputs: a navigation whose response carries
`errorText = "net::ERR_ABORTED"` fails with that `NavigationError` and
keeps the JS context handle; a successful navigation of "" goes to
"about:blank" and clears the handle. -/
theorem navigate_spec_witness :
    ((Page.navigate (some 5) (Except.ok ⟨"net::ERR_ABORTED"⟩) ⟨some 3⟩ "https://x").1
        = NavOutcome.navigationError "net::ERR_ABORTED" ∧
      (Page.navigate (some 5) (Except.ok ⟨"net::ERR_ABORTED"⟩) ⟨some 3⟩ "https://x").2.1
        = ⟨some 3⟩) ∧
    ((Page.navigate none (Except.ok ⟨""⟩) ⟨some 3⟩ "").1 = NavOutcome.success ∧
      (Page.navigate none (Except.ok ⟨""⟩) ⟨some 3⟩ "").2.1 = ⟨none⟩) ∧
    (Page.navigate none (Except.ok ⟨""⟩) ⟨some 3⟩ "").2.2
      = [NavCall.stopLoading, NavCall.pageNavigate "about:blank"] :=
  ⟨(navigate_spec (some 5) (Except.ok ⟨"net::ERR_ABORTED"⟩) ⟨some 3⟩ "https://x").2.2.2.1
      ⟨"net::ERR_ABORTED"⟩ rfl (by decide),
   (navigate_spec none (Except.ok ⟨""⟩) ⟨some 3⟩ "").2.2.2.2 ⟨""⟩ rfl rfl,
   (navigate_spec none (Except.ok ⟨""⟩) ⟨some 3⟩ "").1⟩

/-- C5: `Keyboard.Release` of a key that is not pressed returns nil
without dispatching any event and leaves the state unchanged; releasing a
pressed key removes it from the pressed set and dispatches exactly one
keyUp whose modifier mask is that of the pressed set after the removal. -/
theorem keyboard_release_spec (callErr : Option Nat) (k : Keyboard) (key : Key) :
    (key ∉ k.pressed → Keyboard.release callErr k key = (none, k, [])) ∧
    (key ∈ k.pressed →
       Keyboard.release callErr k key
         = (callErr, ⟨k.pressed.filter (· ≠ key)⟩,
            [⟨false, key, Keyboard.modifiers ⟨k.pressed.filter (· ≠ key)⟩⟩])) := by
  constructor
  · intro h
    simp [Keyboard.release, h]
  · intro h
    simp [Keyboard.release, h]

/-- Witness for C5, scenario D of the spec: with Shift (modifier bit 8)
and A pressed, releasing Shift emits a keyUp carrying modifiers 0 (the
mask of the post-removal set holding only A), and afterwards releasing A also
emits modifiers 0; releasing a key that was never pressed does nothing. -/
theorem keyboard_release_spec_witness :
    Keyboard.release none ⟨[shiftKey, aKey]⟩ shiftKey
      = (none, ⟨[aKey]⟩, [⟨false, shiftKey, 0⟩]) ∧
    Keyboard.release none ⟨[aKey]⟩ aKey = (none, ⟨[]⟩, [⟨false, aKey, 0⟩]) ∧
    Keyboard.release (some 9) ⟨[aKey]⟩ shiftKey = (none, ⟨[aKey]⟩, []) := by
  refine ⟨?_, ?_, ?_⟩
  · rw [(keyboard_release_spec none ⟨[shiftKey, aKey]⟩ shiftKey).2 (by decide)]
    decide
  · rw [(keyboard_release_spec none ⟨[aKey]⟩ aKey).2 (by decide)]
    decide
  · exact (keyboard_release_spec (some 9) ⟨[aKey]⟩ shiftKey).1 (by decide)

/-- C6 counterexample: the claim fails on the code at a concrete input.
`Down("left")` twice in a row (both calls succeeding) leaves the stack
`["left", "left"]`, which contains two equal entries; and `Up("left")` on
the stack `["left", "right", "left"]` yields `["right"]`, removing every
equal entry rather than only the first (which would leave
`["right", "left"]`). -/
theorem mouse_buttons_claim_counterexample :
    (Mouse.run ⟨[]⟩ [MouseOp.down "left", MouseOp.down "left"]).buttons
      = ["left", "left"] ∧
    ¬ (Mouse.run ⟨[]⟩ [MouseOp.down "left", MouseOp.down "left"]).buttons.Nodup ∧
    (Mouse.up none ⟨["left", "right", "left"]⟩ "left").2.buttons = ["right"] ∧
    (Mouse.up none ⟨["left", "right", "left"]⟩ "left").2.buttons
      ≠ ["right", "left"] := by
  refine ⟨rfl, by decide, rfl, by decide⟩

/-- C6 amended: `Mouse.Up(b)` removes every entry equal to `b` from the
order-preserving stack; in any Down/Up call sequence in which `Down(b)` is
never invoked while `b` is already held, the stack never contains two
equal entries, and there `Up(b)` removes exactly the first (and only)
entry equal to `b`. -/
theorem mouse_up_filter_and_nodup (m : Mouse) (b : MouseButton) (ops : List MouseOp) :
    (Mouse.up none m b).2.buttons = m.buttons.filter (· ≠ b) ∧
    (m.buttons.Nodup → (Mouse.up none m b).2.buttons = m.buttons.erase b) ∧
    (m.buttons.Nodup → Mouse.wellUsed m ops = true → (Mouse.run m ops).buttons.Nodup) := by
  refine ⟨rfl, ?_, ?_⟩
  · intro hd
    show m.buttons.filter (· ≠ b) = m.buttons.erase b
    rw [List.Nodup.erase_eq_filter hd]
    refine (List.filter_congr (fun x _ => ?_)).symm
    by_cases h : x = b <;> simp [h, bne_iff_ne]
  · intro hd hw
    induction ops generalizing m with
    | nil => exact hd
    | cons op rest ih =>
        cases op with
        | down c =>
            simp only [Mouse.wellUsed, Bool.and_eq_true, decide_eq_true_eq] at hw
            refine ih (m := Mouse.step m (MouseOp.down c)) ?_ hw.2
            show ((m.buttons ++ [c]).Nodup)
            simp [List.nodup_append, hd, hw.1]
        | up c =>
            simp only [Mouse.wellUsed] at hw
            refine ih (m := Mouse.step m (MouseOp.up c)) ?_ hw
            exact List.Nodup.filter _ hd

/-- Witness for C6 amended at concrete inputs: on the duplicate-free stack
`["left", "right"]`, `Up("right")` removes exactly the first equal entry;
and the well-used sequence down left, down right, up left keeps the stack
duplicate-free. -/
theorem mouse_up_filter_and_nodup_witness :
    (Mouse.up none ⟨["left", "right"]⟩ "right").2.buttons
      = (["left", "right"] : List MouseButton).erase "right" ∧
    (Mouse.run ⟨[]⟩ [MouseOp.down "left", MouseOp.down "right",
        MouseOp.up "left"]).buttons.Nodup :=
  ⟨(mouse_up_filter_and_nodup ⟨["left", "right"]⟩ "right" []).2.1 (by decide),
   (mouse_up_filter_and_nodup ⟨[]⟩ "x"
      [MouseOp.down "left", MouseOp.down "right", MouseOp.up "left"]).2.2
      (by decide) (by decide)⟩

/-- Helper: every task in the completion order completes (the fold only
appends to `completed`). -/
lemma runStableTask_foldl_completed (eLoad eDom : Option Nat) :
    ∀ (order : List StableTask) (s : StableState),
      (order.foldl (runStableTask eLoad eDom) s).completed = s.completed ++ order := by
  intro order
  induction order with
  | nil => intro s; simp
  | cons t rest ih =>
      intro s
      cases t <;> simp [List.foldl, runStableTask, ih]

/-- Helper: once the `sync.Once` has fired, the `err` slot never changes
again. -/
lemma runStableTask_foldl_err_frozen (eLoad eDom : Option Nat) :
    ∀ (order : List StableTask) (s : StableState), s.onceDone = true →
      (order.foldl (runStableTask eLoad eDom) s).err = s.err := by
  intro order
  induction order with
  | nil => intro s _; rfl
  | cons t rest ih =>
      intro s hs
      rw [List.foldl_cons]
      cases t with
      | load => rw [ih _ rfl]; simp [runStableTask, hs]
      | domStable => rw [ih _ rfl]; simp [runStableTask, hs]
      | reqIdle => exact ih _ hs

/-- Helper: starting from a virgin `sync.Once`, the `err` slot ends up
holding the result of the first err-recording task of the order. -/
lemma runStableTask_foldl_err (eLoad eDom : Option Nat) :
    ∀ (order : List StableTask) (c : List StableTask),
      (order.foldl (runStableTask eLoad eDom) ⟨false, none, c⟩).err
        = recordedErr order eLoad eDom := by
  intro order
  induction order with
  | nil => intro c; rfl
  | cons t rest ih =>
      intro c
      cases t with
      | load =>
          simp only [List.foldl, runStableTask, recordedErr, firstRecorder]
          exact runStableTask_foldl_err_frozen eLoad eDom rest _ rfl
      | domStable =>
          simp only [List.foldl, runStableTask, recordedErr, firstRecorder]
          exact runStableTask_foldl_err_frozen eLoad eDom rest _ rfl
      | reqIdle =>
          simp only [List.foldl, runStableTask, recordedErr, firstRecorder]
          exact ih _

/-- C7 counterexample: the claim fails on the code at a concrete
execution.  In the completion order WaitLoad, WaitRequestIdle,
WaitDOMStable with WaitLoad succeeding and WaitDOMStable failing with
error 7, all three tasks complete, an error occurred among them, yet
`WaitStable` returns nil: `setErr` is a `sync.Once` that keeps the result
of the first completer — WaitLoad's nil — and drops the later error. -/
theorem waitStable_claim_counterexample :
    Page.waitStable [StableTask.load, StableTask.reqIdle, StableTask.domStable]
        none (some 7)
      = (none, [StableTask.load, StableTask.reqIdle, StableTask.domStable]) ∧
    (some 7 : Option Nat) ≠ none :=
  ⟨rfl, by decide⟩

/-- C7 amended: `WaitStable(d)` runs WaitLoad, WaitRequestIdle(d) and
WaitDOMStable(d, 0) in parallel and returns only after all three complete
(the completed set is the whole task set); it returns the result — nil or
an error — of whichever of WaitLoad and WaitDOMStable completes first.
WaitRequestIdle reports no error, and an error in the task completing
second is dropped, so the returned value can be nil although an error
occurred. -/
theorem waitStable_returns_first_recorded (order : List StableTask)
    (eLoad eDom : Option Nat)
    (h : order.Perm [StableTask.load, StableTask.reqIdle, StableTask.domStable]) :
    (Page.waitStable order eLoad eDom).2.Perm
        [StableTask.load, StableTask.reqIdle, StableTask.domStable] ∧
    (Page.waitStable order eLoad eDom).1 = recordedErr order eLoad eDom := by
  have h2 : (Page.waitStable order eLoad eDom).2 = order := by
    show (List.foldl (runStableTask eLoad eDom) ⟨false, none, []⟩ order).completed = order
    rw [runStableTask_foldl_completed]
    simp
  constructor
  · rw [h2]; exact h
  · exact runStableTask_foldl_err eLoad eDom order []

/-- Witness for C7 amended: in the completion order WaitDOMStable,
WaitLoad, WaitRequestIdle with WaitDOMStable failing with error 3, all
three tasks complete and the error 3 is returned. -/
theorem waitStable_returns_first_recorded_witness :
    (Page.waitStable [StableTask.domStable, StableTask.load, StableTask.reqIdle]
        none (some 3)).2.Perm
        [StableTask.load, StableTask.reqIdle, StableTask.domStable] ∧
    (Page.waitStable [StableTask.domStable, StableTask.load, StableTask.reqIdle]
        none (some 3)).1
      = recordedErr [StableTask.domStable, StableTask.load, StableTask.reqIdle]
          none (some 3) :=
  waitStable_returns_first_recorded
    [StableTask.domStable, StableTask.load, StableTask.reqIdle] none (some 3)
    (by decide)

/-- Helper: after deleting a request id from the waitList, the id is no
longer tracked. -/
lemma tracked_filter_self (wl : List (Nat × String)) (a d id : Nat) :
    IdleTracker.tracked ⟨wl.filter (·.1 ≠ id), a, d⟩ id = false := by
  show (wl.filter (·.1 ≠ id)).any (·.1 = id) = false
  simp [List.any_eq_true, List.mem_filter]

/-- C3: in the `WaitRequestIdle` handler, a `requestWillBeSent` whose type
is not excluded and whose URL matches adds its request id to the in-flight
map and increments the idle counter only when the id is not already
present, so a redirect reusing the id is counted exactly once; every
`loadingFinished` or `loadingFailed` for a tracked id deletes it and
decrements exactly once — afterwards the id is untracked, and a repeat
finish or fail for it is a no-op, as is one for a never-tracked id. -/
theorem waitRequestIdle_handler_spec (excludeTypes : List String)
    (matchURL : String → Bool) (st : IdleTracker) (id : Nat) (url rtype : String) :
    (rtype ∉ excludeTypes → matchURL url = true → st.tracked id = false →
       handleNetEvent excludeTypes matchURL st (NetEvent.requestWillBeSent id url rtype)
         = ⟨st.waitList ++ [(id, url)], st.adds + 1, st.dones⟩) ∧
    (rtype ∉ excludeTypes → matchURL url = true → st.tracked id = true →
       handleNetEvent excludeTypes matchURL st (NetEvent.requestWillBeSent id url rtype)
         = st) ∧
    (rtype ∈ excludeTypes →
       handleNetEvent excludeTypes matchURL st (NetEvent.requestWillBeSent id url rtype)
         = st) ∧
    (st.tracked id = true →
       handleNetEvent excludeTypes matchURL st (NetEvent.loadingFinished id)
           = ⟨st.waitList.filter (·.1 ≠ id), st.adds, st.dones + 1⟩ ∧
       handleNetEvent excludeTypes matchURL st (NetEvent.loadingFailed id)
           = ⟨st.waitList.filter (·.1 ≠ id), st.adds, st.dones + 1⟩ ∧
       (handleNetEvent excludeTypes matchURL st (NetEvent.loadingFinished id)).tracked id
           = false) ∧
    (st.tracked id = false →
       handleNetEvent excludeTypes matchURL st (NetEvent.loadingFinished id) = st ∧
       handleNetEvent excludeTypes matchURL st (NetEvent.loadingFailed id) = st) := by
  refine ⟨?_, ?_, ?_, ?_, ?_⟩
  · intro hex hm ht
    simp [handleNetEvent, hex, hm, ht]
  · intro hex hm ht
    simp [handleNetEvent, hex, hm, ht]
  · intro hex
    simp [handleNetEvent, hex]
  · intro ht
    refine ⟨?_, ?_, ?_⟩
    · simp [handleNetEvent, IdleTracker.checkDone, ht]
    · simp [handleNetEvent, IdleTracker.checkDone, ht]
    · simp only [handleNetEvent, IdleTracker.checkDone, ht, if_true]
      exact tracked_filter_self st.waitList st.adds (st.dones + 1) id
  · intro ht
    constructor <;> simp [handleNetEvent, IdleTracker.checkDone, ht]

/-- Witness for C3, scenario B of the spec: from an empty tracker, the
request `id 1, url "/a", type "XHR"` (not excluded by the default list) is
added and counted; the redirect resending `id 1` with url "/b" changes
nothing; `loadingFinished id 1` removes it and balances the counter; a
second `loadingFinished id 1` is a no-op. -/
theorem waitRequestIdle_handler_spec_witness :
    handleNetEvent defaultExcludeTypes (fun _ => true) ⟨[], 0, 0⟩
        (NetEvent.requestWillBeSent 1 "/a" "XHR") = ⟨[(1, "/a")], 1, 0⟩ ∧
    handleNetEvent defaultExcludeTypes (fun _ => true) ⟨[(1, "/a")], 1, 0⟩
        (NetEvent.requestWillBeSent 1 "/b" "XHR") = ⟨[(1, "/a")], 1, 0⟩ ∧
    handleNetEvent defaultExcludeTypes (fun _ => true) ⟨[(1, "/a")], 1, 0⟩
        (NetEvent.loadingFinished 1) = ⟨[], 1, 1⟩ ∧
    handleNetEvent defaultExcludeTypes (fun _ => true) ⟨[], 1, 1⟩
        (NetEvent.loadingFinished 1) = ⟨[], 1, 1⟩ := by
  refine ⟨?_, ?_, ?_, ?_⟩
  · exact (waitRequestIdle_handler_spec defaultExcludeTypes (fun _ => true)
      ⟨[], 0, 0⟩ 1 "/a" "XHR").1 (by decide) rfl rfl
  · exact (waitRequestIdle_handler_spec defaultExcludeTypes (fun _ => true)
      ⟨[(1, "/a")], 1, 0⟩ 1 "/b" "XHR").2.1 (by decide) rfl (by decide)
  · have h := ((waitRequestIdle_handler_spec defaultExcludeTypes (fun _ => true)
      ⟨[(1, "/a")], 1, 0⟩ 1 "/b" "XHR").2.2.2.1 (by decide)).1
    rw [h]; rfl
  · exact ((waitRequestIdle_handler_spec defaultExcludeTypes (fun _ => true)
      ⟨[], 1, 1⟩ 1 "/b" "XHR").2.2.2.2 (by decide)).1

/-- Helper: a `javascriptDialogClosed{result=false}` on the page's own
session makes the close loop report failure, provided no
`TargetDestroyed` for the page's target precedes it. -/
lemma closeLoop_dialog_denied (tid sid : String) :
    ∀ (pre post : List Msg) (s : Bool),
      (∀ m ∈ pre, m.ev ≠ CloseEv.targetDestroyed tid) →
      closeLoop tid sid s (pre ++ ⟨sid, CloseEv.dialogClosed false⟩ :: post) = false := by
  intro pre
  induction pre with
  | nil =>
      intro post s _
      simp [closeLoop]
  | cons m rest ih =>
      intro post s hpre
      have hm := hpre m (by simp)
      have hrest : ∀ x ∈ rest, x.ev ≠ CloseEv.targetDestroyed tid :=
        fun x hx => hpre x (by simp [hx])
      rw [List.cons_append]
      cases hev : m.ev with
      | targetDestroyed t =>
          have ht : ¬ t = tid := by
            intro h
            exact hm (by rw [hev, h])
          simp only [closeLoop, hev, if_neg ht]
          exact ih post s hrest
      | dialogClosed r =>
          by_cases hs : m.sessionID = sid
          · cases r with
            | true => simp only [closeLoop, hev, if_pos hs]; exact ih post true hrest
            | false => simp [closeLoop, hev, hs]
          · simp only [closeLoop, hev, if_neg hs]; exact ih post s hrest
      | otherEv =>
          simp only [closeLoop, hev]
          exact ih post s hrest

/-- Helper: a `TargetDestroyed` for the page's target makes the close loop
report success, provided no denied dialog on the page's session precedes
it. -/
lemma closeLoop_target_destroyed (tid sid sess : String) :
    ∀ (pre post : List Msg),
      (∀ m ∈ pre, ¬(m.sessionID = sid ∧ m.ev = CloseEv.dialogClosed false)) →
      closeLoop tid sid true (pre ++ ⟨sess, CloseEv.targetDestroyed tid⟩ :: post) = true := by
  intro pre
  induction pre with
  | nil =>
      intro post _
      simp [closeLoop]
  | cons m rest ih =>
      intro post hpre
      have hm := hpre m (by simp)
      have hrest : ∀ x ∈ rest, ¬(x.sessionID = sid ∧ x.ev = CloseEv.dialogClosed false) :=
        fun x hx => hpre x (by simp [hx])
      rw [List.cons_append]
      cases hev : m.ev with
      | targetDestroyed t =>
          by_cases ht : t = tid
          · simp [closeLoop, hev, ht]
          · simp only [closeLoop, hev, if_neg ht]; exact ih post hrest
      | dialogClosed r =>
          by_cases hs : m.sessionID = sid
          · cases r with
            | true => simp only [closeLoop, hev, if_pos hs]; exact ih post hrest
            | false => exact absurd ⟨hs, hev⟩ hm
          · simp only [closeLoop, hev, if_neg hs]; exact ih post hrest
      | otherEv =>
          simp only [closeLoop, hev]
          exact ih post hrest

/-- C2: once `Close` has successfully issued `Page.close` (after retrying
any not-attached results), a `javascriptDialogClosed{result=false}` on the
page's own session arriving before any `TargetDestroyed` for the page's
target makes `Close` return `PageCloseCanceledError` without running the
page cleanup; if instead a `TargetDestroyed` for the page's target arrives
(with no denied dialog on the session before it), `Close` runs the cleanup
and returns nil. -/
theorem close_denied_or_destroyed (tid sid sess : String) (crs : List CloseCallRes)
    (pre post : List Msg) :
    firstDecisive crs = some CloseCallRes.okCall →
    ((∀ m ∈ pre, m.ev ≠ CloseEv.targetDestroyed tid) →
       Page.close tid sid crs (pre ++ ⟨sid, CloseEv.dialogClosed false⟩ :: post)
         = some CloseOutcome.canceled) ∧
    ((∀ m ∈ pre, ¬(m.sessionID = sid ∧ m.ev = CloseEv.dialogClosed false)) →
       Page.close tid sid crs (pre ++ ⟨sess, CloseEv.targetDestroyed tid⟩ :: post)
         = some CloseOutcome.cleanup) := by
  intro hok
  constructor
  · intro hpre
    simp [Page.close, hok, closeLoop_dialog_denied tid sid pre post true hpre]
  · intro hpre
    simp [Page.close, hok, closeLoop_target_destroyed tid sid sess pre post hpre]

/-- Witness for C2 at concrete inputs: with target "t", session "s", one
not-attached retry before the successful `Page.close` call, and a
preceding unrelated message, the denied dialog leads to
`PageCloseCanceled` and the destroyed target leads to cleanup. -/
theorem close_denied_or_destroyed_witness :
    Page.close "t" "s" [CloseCallRes.notAttached, CloseCallRes.okCall]
        ([⟨"s2", CloseEv.otherEv⟩] ++ ⟨"s", CloseEv.dialogClosed false⟩ :: [])
      = some CloseOutcome.canceled ∧
    Page.close "t" "s" [CloseCallRes.notAttached, CloseCallRes.okCall]
        ([⟨"s2", CloseEv.otherEv⟩] ++ ⟨"x", CloseEv.targetDestroyed "t"⟩ :: [])
      = some CloseOutcome.cleanup :=
  ⟨(close_denied_or_destroyed "t" "s" "x" [CloseCallRes.notAttached, CloseCallRes.okCall]
      [⟨"s2", CloseEv.otherEv⟩] [] rfl).1 (by decide),
   (close_denied_or_destroyed "t" "s" "x" [CloseCallRes.notAttached, CloseCallRes.okCall]
      [⟨"s2", CloseEv.otherEv⟩] [] rfl).2 (by decide)⟩

/-- Helper: the pressed set after a press action. -/
lemma doAction_press_pressed (k : Keyboard) (key : Key) :
    (Keyboard.doAction k ⟨KeyActionType.press, key⟩).1.pressed
      = if key ∈ k.pressed then k.pressed else k.pressed ++ [key] := rfl

/-- Helper: the pressed set after a release action. -/
lemma doAction_release_pressed (k : Keyboard) (key : Key) :
    (Keyboard.doAction k ⟨KeyActionType.release, key⟩).1.pressed
      = if key ∈ k.pressed then k.pressed.filter (· ≠ key) else k.pressed := by
  by_cases h : key ∈ k.pressed <;>
    simp [Keyboard.doAction, Keyboard.release, h]

/-- Helper: the pressed set after a type action (press then release). -/
lemma doAction_typeKey_pressed (k : Keyboard) (key : Key) :
    (Keyboard.doAction k ⟨KeyActionType.typeKey, key⟩).1.pressed
      = (if key ∈ k.pressed then k.pressed else k.pressed ++ [key]).filter (· ≠ key) := by
  by_cases h : key ∈ k.pressed <;>
    simp [Keyboard.doAction, Keyboard.press, Keyboard.release, h, List.mem_append]

/-- Helper: an action on another key does not change whether `key` is
pressed. -/
lemma doAction_mem_other (k : Keyboard) (a : KeyAction) (key : Key)
    (h : ¬ a.key = key) :
    (key ∈ (Keyboard.doAction k a).1.pressed ↔ key ∈ k.pressed) := by
  obtain ⟨kind, akey⟩ := a
  simp only at h
  have hne : ¬ key = akey := fun hk => h hk.symm
  cases kind with
  | press =>
      rw [doAction_press_pressed]
      split
      · exact Iff.rfl
      · simp [List.mem_append, hne]
  | release =>
      rw [doAction_release_pressed]
      split
      · simp [List.mem_filter, hne]
      · exact Iff.rfl
  | typeKey =>
      rw [doAction_typeKey_pressed]
      split <;> simp [List.mem_filter, List.mem_append, hne]

/-- Helper: after a release or type action, its own key is not pressed. -/
lemma doAction_not_mem_self (k : Keyboard) (a : KeyAction)
    (h : a.kind = KeyActionType.release ∨ a.kind = KeyActionType.typeKey) :
    a.key ∉ (Keyboard.doAction k a).1.pressed := by
  obtain ⟨kind, akey⟩ := a
  simp only at h
  cases kind with
  | press => rcases h with h | h <;> exact absurd h (by simp)
  | release =>
      rw [doAction_release_pressed]
      split
      · simp [List.mem_filter]
      · assumption
  | typeKey =>
      rw [doAction_typeKey_pressed]
      simp [List.mem_filter]

/-- Helper: a run of actions none of which concerns `key` does not change
whether `key` is pressed. -/
lemma runActions_mem_other (key : Key) :
    ∀ (l : List KeyAction) (k : Keyboard), (∀ a ∈ l, ¬ a.key = key) →
      (key ∈ (Keyboard.runActions k l).1.pressed ↔ key ∈ k.pressed) := by
  intro l
  induction l with
  | nil => intro k _; exact Iff.rfl
  | cons a rest ih =>
      intro k hl
      have : (Keyboard.runActions k (a :: rest)).1
          = (Keyboard.runActions (Keyboard.doAction k a).1 rest).1 := rfl
      rw [this]
      exact (ih (Keyboard.doAction k a).1 (fun x hx => hl x (by simp [hx]))).trans
        (doAction_mem_other k a key (hl a (by simp)))

/-- Helper: if the last action of the list concerning `key` is a release
or a type, then `key` is not pressed after running the list. -/
lemma runActions_lastKind_released (key : Key) :
    ∀ (l : List KeyAction) (k : Keyboard),
      (lastKind l key = some KeyActionType.release ∨
        lastKind l key = some KeyActionType.typeKey) →
      key ∉ (Keyboard.runActions k l).1.pressed := by
  intro l
  induction l with
  | nil =>
      intro k h
      rcases h with h | h <;> exact absurd h (by simp [lastKind])
  | cons a rest ih =>
      intro k h
      have hrun : (Keyboard.runActions k (a :: rest)).1
          = (Keyboard.runActions (Keyboard.doAction k a).1 rest).1 := rfl
      rw [hrun]
      by_cases hrest : rest.filter (·.key = key) = []
      · have hnone : ∀ x ∈ rest, ¬ x.key = key := by
          intro x hx
          have := List.filter_eq_nil_iff.mp hrest x hx
          simpa using this
        by_cases hak : a.key = key
        · have hfl : (a :: rest).filter (·.key = key) = [a] := by
            simp [List.filter_cons, hak, hrest]
          have hkind : a.kind = KeyActionType.release ∨ a.kind = KeyActionType.typeKey := by
            have hkA : lastKind (a :: rest) key = some a.kind := by
              simp [lastKind, hfl]
            rw [hkA] at h
            rcases h with h | h
            · exact Or.inl (Option.some.inj h)
            · exact Or.inr (Option.some.inj h)
          rw [runActions_mem_other key rest (Keyboard.doAction k a).1 hnone]
          rw [← hak]
          exact doAction_not_mem_self k a hkind
        · exfalso
          have hfl : (a :: rest).filter (·.key = key) = [] := by
            simp [List.filter_cons, hak, hrest]
          rcases h with h | h <;> simp [lastKind, hfl] at h
      · have hlk : lastKind (a :: rest) key = lastKind rest key := by
          unfold lastKind
          by_cases hak : a.key = key
          · rw [List.filter_cons, if_pos (by simp [hak]),
                show a :: rest.filter (·.key = key) = [a] ++ rest.filter (·.key = key) from rfl,
                List.getLast?_append_of_ne_nil [a] hrest]
          · rw [List.filter_cons, if_neg (by simp [hak])]
        rw [hlk] at h
        exact ih (Keyboard.doAction k a).1 h

/-- Helper: in a duplicate-free list, filtering for a member yields
exactly that member. -/
lemma nodup_filter_eq_singleton {α : Type} [DecidableEq α] :
    ∀ (l : List α), l.Nodup → ∀ a ∈ l, l.filter (· = a) = [a] := by
  intro l
  induction l with
  | nil => intro _ a ha; cases ha
  | cons x xs ih =>
      intro hd a ha
      rcases List.mem_cons.mp ha with rfl | ha'
      · have hnx : a ∉ xs := (List.nodup_cons.mp hd).1
        have hxs : xs.filter (· = a) = [] := by
          apply List.filter_eq_nil_iff.mpr
          intro b hb
          simp only [decide_eq_true_eq]
          intro hba
          exact hnx (hba ▸ hb)
        rw [List.filter_cons, if_pos (by simp), hxs]
      · have hxa : ¬ x = a := by
          intro hxa
          exact (List.nodup_cons.mp hd).1 (hxa ▸ ha')
        rw [List.filter_cons, if_neg (by simp [hxa])]
        exact ih (List.nodup_cons.mp hd).2 a ha'

/-- Helper: a key whose final recorded action is a press occurs in the
action list. -/
lemma lastIsPress_mem_keysOf (actions : List KeyAction) (key : Key)
    (h : lastIsPress actions key = true) : key ∈ keysOf actions := by
  unfold lastIsPress at h
  rcases hf : (actions.filter (·.key = key)).getLast? with _ | a
  · rw [hf] at h; simp at h
  · have ha := List.mem_of_getLast?_eq_some hf
    have hm := List.mem_filter.mp ha
    unfold keysOf
    rw [List.mem_dedup]
    refine List.mem_map.mpr ⟨a, hm.1, ?_⟩
    simpa using hm.2

/-- Helper: the appended releases concerning `key`: exactly one when the
key's final recorded action is a press, none otherwise. -/
lemma balanceAppended_filter (actions : List KeyAction) (key : Key) :
    (KeyActions.balanceAppended actions).filter (·.key = key)
      = if lastIsPress actions key then [⟨KeyActionType.release, key⟩] else [] := by
  unfold KeyActions.balanceAppended
  rw [List.filter_map]
  have hpred : ((fun a : KeyAction => decide (a.key = key)) ∘
      (fun k => (⟨KeyActionType.release, k⟩ : KeyAction)))
      = fun k : Key => decide (k = key) := rfl
  rw [hpred]
  by_cases h : lastIsPress actions key
  · have hmem : key ∈ (keysOf actions).filter (lastIsPress actions) :=
      List.mem_filter.mpr ⟨lastIsPress_mem_keysOf actions key h, h⟩
    have hnd : ((keysOf actions).filter (lastIsPress actions)).Nodup :=
      List.Nodup.filter _ (List.nodup_dedup _)
    rw [nodup_filter_eq_singleton _ hnd key hmem]
    simp [h]
  · have hnil : ((keysOf actions).filter (lastIsPress actions)).filter (· = key) = [] := by
      apply List.filter_eq_nil_iff.mpr
      intro b hb
      simp only [decide_eq_true_eq]
      intro hbk
      exact h (hbk ▸ (List.mem_filter.mp hb).2)
    rw [hnil]
    simp [h]

/-- Helper: the last action concerning a key occurring in the scheduled
list is, after balancing, a release or a type. -/
lemma balance_lastKind (actions : List KeyAction) (key : Key)
    (h : ∃ a ∈ actions, a.key = key) :
    lastKind (KeyActions.balance actions) key = some KeyActionType.release ∨
    lastKind (KeyActions.balance actions) key = some KeyActionType.typeKey := by
  unfold lastKind KeyActions.balance
  rw [List.filter_append, balanceAppended_filter]
  by_cases hp : lastIsPress actions key
  · rw [if_pos hp, List.getLast?_append_of_ne_nil _ (by simp)]
    left
    rfl
  · rw [if_neg hp, List.append_nil]
    obtain ⟨a, ha, hak⟩ := h
    have hne : actions.filter (·.key = key) ≠ [] :=
      List.ne_nil_of_mem (List.mem_filter.mpr ⟨ha, by simp [hak]⟩)
    rcases hf : (actions.filter (·.key = key)).getLast? with _ | b
    · exact absurd (List.getLast?_eq_none_iff.mp hf) hne
    · have hbk : ¬ b.kind = KeyActionType.press := by
        intro hbp
        apply hp
        unfold lastIsPress
        rw [hf]
        simp [hbp]
      cases hk : b.kind with
      | press => exact absurd hk hbk
      | release => left; simp [hf, hk]
      | typeKey => right; simp [hf, hk]

/-- C9: `balance()` turns the scheduled actions into the scheduled actions
followed by appended releases only, with exactly one appended release for
each key whose final recorded action is a press (Release and Type count as
releasing); consequently running `Do()` leaves no key pressed by the
sequence in the keyboard's pressed set. -/
theorem keyActions_balance_and_do (actions : List KeyAction) (kb : Keyboard) (key : Key) :
    KeyActions.balance actions = actions ++ KeyActions.balanceAppended actions ∧
    (∀ a ∈ KeyActions.balanceAppended actions, a.kind = KeyActionType.release) ∧
    (KeyActions.balanceAppended actions).count ⟨KeyActionType.release, key⟩
      = (if lastIsPress actions key then 1 else 0) ∧
    ((∃ a ∈ actions, a.kind = KeyActionType.press ∧ a.key = key) →
      key ∉ (KeyActions.doRun kb actions).1.pressed) := by
  refine ⟨rfl, ?_, ?_, ?_⟩
  · intro a ha
    obtain ⟨k, _, rfl⟩ := List.mem_map.mp ha
    rfl
  · unfold KeyActions.balanceAppended
    rw [List.count_map_of_injective _ _
      (fun x y hxy => congrArg KeyAction.key hxy) key]
    by_cases h : lastIsPress actions key
    · rw [if_pos h]
      exact List.count_eq_one_of_mem
        (List.Nodup.filter _ (List.nodup_dedup _))
        (List.mem_filter.mpr ⟨lastIsPress_mem_keysOf actions key h, h⟩)
    · rw [if_neg h]
      apply List.count_eq_zero_of_not_mem
      intro hmem
      exact h (List.mem_filter.mp hmem).2
  · rintro ⟨a, ha, _, hak⟩
    exact runActions_lastKind_released key (KeyActions.balance actions) kb
      (balance_lastKind actions key ⟨a, ha, hak⟩)

/-- Witness for C9, scenario E of the spec: for press Ctrl, press Shift,
press Ctrl, `balance` appends exactly one release each of Ctrl and Shift,
and `Do()` from an empty keyboard leaves Ctrl and Shift unpressed — the
pressed set ends empty. -/
theorem keyActions_balance_and_do_witness :
    ctrlKey ∉ (KeyActions.doRun ⟨[]⟩
      [⟨KeyActionType.press, ctrlKey⟩, ⟨KeyActionType.press, shiftKey⟩,
       ⟨KeyActionType.press, ctrlKey⟩]).1.pressed ∧
    shiftKey ∉ (KeyActions.doRun ⟨[]⟩
      [⟨KeyActionType.press, ctrlKey⟩, ⟨KeyActionType.press, shiftKey⟩,
       ⟨KeyActionType.press, ctrlKey⟩]).1.pressed ∧
    (KeyActions.balanceAppended
      [⟨KeyActionType.press, ctrlKey⟩, ⟨KeyActionType.press, shiftKey⟩,
       ⟨KeyActionType.press, ctrlKey⟩]).count ⟨KeyActionType.release, ctrlKey⟩ = 1 ∧
    (KeyActions.balanceAppended
      [⟨KeyActionType.press, ctrlKey⟩, ⟨KeyActionType.press, shiftKey⟩,
       ⟨KeyActionType.press, ctrlKey⟩]).count ⟨KeyActionType.release, shiftKey⟩ = 1 ∧
    (KeyActions.doRun ⟨[]⟩
      [⟨KeyActionType.press, ctrlKey⟩, ⟨KeyActionType.press, shiftKey⟩,
       ⟨KeyActionType.press, ctrlKey⟩]).1.pressed = [] := by
  refine ⟨?_, ?_, ?_, ?_, by decide⟩
  · exact (keyActions_balance_and_do
      [⟨KeyActionType.press, ctrlKey⟩, ⟨KeyActionType.press, shiftKey⟩,
       ⟨KeyActionType.press, ctrlKey⟩] ⟨[]⟩ ctrlKey).2.2.2 (by decide)
  · exact (keyActions_balance_and_do
      [⟨KeyActionType.press, ctrlKey⟩, ⟨KeyActionType.press, shiftKey⟩,
       ⟨KeyActionType.press, ctrlKey⟩] ⟨[]⟩ shiftKey).2.2.2 (by decide)
  · rw [(keyActions_balance_and_do
      [⟨KeyActionType.press, ctrlKey⟩, ⟨KeyActionType.press, shiftKey⟩,
       ⟨KeyActionType.press, ctrlKey⟩] ⟨[]⟩ ctrlKey).2.2.1]
    decide
  · rw [(keyActions_balance_and_do
      [⟨KeyActionType.press, ctrlKey⟩, ⟨KeyActionType.press, shiftKey⟩,
       ⟨KeyActionType.press, ctrlKey⟩] ⟨[]⟩ shiftKey).2.2.1]
    decide

end Rod
